import Mathlib

/-!
Formal model of the PyTattle core (`pytattle/__init__.py` and
`pytattle/reporters/__init__.py`): encrypted configuration persistence,
error fingerprinting, and multi-channel report dispatch.

Python runtime behaviour that the source relies on (attribute lookup,
bare-name resolution, raised exceptions) is made explicit; a computation
that can raise is modelled with `Except PyExc`.
-/

namespace PyTattle

deriving instance DecidableEq for Except

/-- Python exceptions raised by the modelled code. `invalidToken` is
`cryptography.fernet.InvalidToken`, the authentication failure raised by
`Fernet.decrypt` (the spec's `AuthenticationError`). -/
inductive PyExc where
  | invalidToken
  | attributeError (n : String)
  | nameError (n : String)
  | exception (msg : String)
deriving DecidableEq, Repr

/-- Byte strings (`bytes`), as lists of character codes. -/
abbrev Bytes := List Nat

/-- Model of `str.encode`: the list of the string's character codes. -/
def strToBytes (s : String) : Bytes := s.data.map Char.toNat

/-- Model of `bytes.decode`, the inverse of `strToBytes` on encoded data. -/
def bytesToStr (b : Bytes) : String := String.mk (b.map Char.ofNat)

/-- Python `dict.get(key, default=None)` on an association list (a dict has
unique keys, so the first binding wins). -/
def dictGet {α : Type} (d : List (String × α)) (k : String) : Option α :=
  match d with
  | [] => none
  | (k2, v) :: rest => if k2 = k then some v else dictGet rest k

/-- Python `d[key] = value`: overwrite an existing binding in place, or
append a new one. -/
def dictInsert {α : Type} (d : List (String × α)) (k : String) (v : α) :
    List (String × α) :=
  match d with
  | [] => [(k, v)]
  | (k2, v2) :: rest =>
    if k2 = k then (k2, v) :: rest else (k2, v2) :: dictInsert rest k v

/-- Key material built by `Crypter._get_fernet`: PBKDF2-HMAC-SHA256 with
100000 iterations over (passphrase, salt) is a fixed deterministic function,
idealised here as the pair itself (a collision between distinct
passphrase/salt pairs is cryptographically negligible and treated as
impossible in this model). -/
structure FernetKey where
  passphrase : String
  salt : Bytes
deriving DecidableEq, Repr

/-- Byte strings handed to `Fernet.decrypt`: either a token produced by
`Fernet.encrypt` under some key, or any other byte string (corrupted or
arbitrary data), which never authenticates. -/
inductive Ciphertext where
  | token (key : FernetKey) (content : Bytes)
  | junk (raw : Bytes)
deriving DecidableEq, Repr

/-- Model of `Fernet(key).encrypt`: an authenticated token binding the key
and the payload. -/
def fernetEncrypt (key : FernetKey) (content : Bytes) : Ciphertext :=
  Ciphertext.token key content

/-- Model of `Fernet(key).decrypt`: authenticated decryption succeeds
exactly on tokens built under the same key and raises `InvalidToken`
otherwise. -/
def fernetDecrypt (key : FernetKey) (c : Ciphertext) : Except PyExc Bytes :=
  match c with
  | Ciphertext.token k m => if k = key then Except.ok m else Except.error PyExc.invalidToken
  | Ciphertext.junk _ => Except.error PyExc.invalidToken

/-- A `Crypter` after construction: it owns only its resolved salt. -/
structure Crypter where
  salt : Bytes
deriving DecidableEq, Repr

/-- Model of `Crypter._get_fernet`: derive the Fernet key from the
passphrase and the crypter's salt. -/
def Crypter.getFernet (c : Crypter) (passphrase : String) : FernetKey :=
  FernetKey.mk passphrase c.salt

/-- Model of `Crypter.encrypt`: `fernet.encrypt(content.encode())`. -/
def Crypter.encrypt (c : Crypter) (content : String) (passphrase : String) :
    Ciphertext :=
  fernetEncrypt (c.getFernet passphrase) (strToBytes content)

/-- Model of `Crypter.decrypt`: `fernet.decrypt(content).decode()`. -/
def Crypter.decrypt (c : Crypter) (content : Ciphertext) (passphrase : String) :
    Except PyExc String :=
  (fernetDecrypt (c.getFernet passphrase) content).map bytesToStr

/-- Argument `salt` of `Crypter.__init__`: a path string, raw bytes, or the
default `None`. -/
inductive SaltArg where
  | path (p : String)
  | bytes (b : Bytes)
  | pyNone
deriving DecidableEq, Repr

/-- Value of `self.salt` after `Crypter.__init__` finishes; the source can
leave a plain string there. -/
inductive SaltVal where
  | str (p : String)
  | bytes (b : Bytes)
deriving DecidableEq, Repr

/-- Model of the salt-handling tail of `Crypter.__init__`. `fs` is the file
system as a path-to-content map and `fresh` the bytes `os.urandom(16)`
would return; the result is (`self.salt`, the file system afterwards).
Mirrors the source exactly: a string argument is only read when the path
exists (nothing is generated or persisted when it does not), and a
non-string argument first rebinds the local `salt` to the random bytes and
then executes `open(salt, "wb")`, so the random bytes themselves serve as
the file path being written. -/
def crypterInitSalt (salt : SaltArg) (fs : List (String × Bytes)) (fresh : Bytes) :
    SaltVal × List (String × Bytes) :=
  match salt with
  | SaltArg.path p =>
    match dictGet fs p with
    | some content => (SaltVal.bytes content, fs)
    | none => (SaltVal.str p, fs)
  | _ => (SaltVal.bytes fresh, dictInsert fs (bytesToStr fresh) fresh)

/-- In-memory state of a `Config` (a `ConfigParser` subclass): the section
map plus the constructor attributes the methods use. `passphrase = none`
models a falsy passphrase, in which case `__init__` creates no crypter. -/
structure Config where
  config_file : String
  passphrase : Option String
  crypter : Option Crypter
  sections : List (String × List (String × String))
deriving DecidableEq, Repr

/-- Rendering of one section as `ConfigParser.write` produces it:
a `[section]` header, `option = value` lines, then a blank line. -/
def serializeSection : String × List (String × String) → String
  | (n, opts) =>
    "[" ++ n ++ "]\n" ++
      String.join (opts.map (fun o => o.1 ++ " = " ++ o.2 ++ "\n")) ++ "\n"

/-- Serialisation of the whole section map (`super().write(string)` into a
`StringIO`). -/
def serializeConfig (sections : List (String × List (String × String))) : String :=
  String.join (sections.map serializeSection)

/-- Outcome of `Config.write`: the bytes that end up in `config_file`, or
the exception raised. Mirrors the source's two branches, each of which is
broken: with a passphrase the source computes
`encrypted = self.crypter.decrypt(string.getvalue(), self.passphrase)` —
`decrypt` instead of `encrypt` — and the freshly serialised text is not a
Fernet token, hence `junk` to `fernetDecrypt` and an `InvalidToken`;
without a passphrase the source calls `super().write(self.config_file)`,
passing the path string where `ConfigParser.write` expects an open file
object, so Python raises `AttributeError` when it calls `.write` on the
string. -/
def Config.write (cfg : Config) : Except PyExc Bytes :=
  match cfg.passphrase, cfg.crypter with
  | some p, some c =>
    match c.decrypt (Ciphertext.junk (strToBytes (serializeConfig cfg.sections))) p with
    | Except.error e => Except.error e
    | Except.ok s => Except.ok (strToBytes s)
  | _, _ => Except.error (PyExc.attributeError "write")

/-- Names visible in the body of `Config.get_cache`: its parameters and the
module-level bindings of `pytattle/__init__.py`. The body reads the bare
identifier `name`, which is not among them. -/
def getCacheScopeNames : List String :=
  ["self", "section_name",
   "base64", "defaultdict", "ConfigParser", "hashlib", "io", "logging", "os",
   "TattleError", "Crypter", "Serializable", "Config", "App", "User",
   "Error", "ErrorFactory", "Report"]

/-- Model of Python resolution of a bare identifier: a `NameError` when the
name is bound in no enclosing scope. -/
def resolveName (scope : List String) (n : String) : Except PyExc Unit :=
  if n ∈ scope then Except.ok () else Except.error (PyExc.nameError n)

/-- Model of `Config.get_cache`, whose body is `return self._cache[name]`:
evaluating it first resolves the bare identifier `name`. The `ok` branch
returns the defaultdict entry for the requested section (defaulting to an
empty dict); it is unreachable because `name` is in no scope, which
`get_cache_name_error` proves. -/
def Config.get_cache (cache : List (String × List (String × String)))
    (section_name : String) : Except PyExc (List (String × String)) :=
  match resolveName getCacheScopeNames "name" with
  | Except.error e => Except.error e
  | Except.ok _ => Except.ok ((dictGet cache section_name).getD [])

/-- Class attribute `Error.fingerprint_fields`, verbatim from the source —
including the misspelt first entry `pacakge_name`. -/
def Error.fingerprint_fields : List String :=
  ["pacakge_name", "module_name", "method_name", "exc_type", "exc_message"]

/-- Constructor arguments of `Error.__init__`, as documented and declared
in the source. The body of `__init__` is `pass`, so none of them is ever
stored on the instance. -/
structure ErrorRec where
  application_metadata : List (String × String)
  system_metadata : List (String × String)
  lineno : Nat
  package_name : String
  module_name : String
  method_name : String
  exc_type : String
  exc_value : String
  exc_message : String
  traceback : String
  timestamp : Nat
deriving DecidableEq, Repr

/-- Instance dictionary of an `Error` object: empty, because `__init__` is
`pass` and assigns nothing to `self`. -/
def ErrorRec.instanceDict (_e : ErrorRec) : List (String × String) := []

/-- Attribute names found on the `Error` class (its methods and the
`fingerprint_fields` class attribute, plus the inherited `as_dict`); none
of the fingerprint field names is among them. -/
def errorClassAttrNames : List String :=
  ["fingerprint_fields", "as_fingerprint", "as_dict"]

/-- Model of `getattr(self, field)` on an `Error` instance: the instance
dictionary first, then the class attributes, else `AttributeError`. Class
attributes are methods or the field-name tuple; the fingerprint loop never
asks for them, so their value is represented by their own name. -/
def ErrorRec.getattr (e : ErrorRec) (n : String) : Except PyExc String :=
  match dictGet e.instanceDict n with
  | some v => Except.ok v
  | none =>
    if n ∈ errorClassAttrNames then Except.ok n
    else Except.error (PyExc.attributeError n)

/-- Placeholder for `hashlib.sha256(payload).hexdigest()`. The fingerprint
code provably never reaches a hash computation — `getattr` raises on the
first field for every record (`as_fingerprint_total_failure`) — so only the
reachability structure around this function matters, not its value. -/
def sha256Hex (payload : Bytes) : String := "sha256:" ++ toString payload

/-- Payloads of the `sha.update(str(getattr(self, field)).encode())` calls
of `Error.as_fingerprint`, in field order; the first failing `getattr`
aborts the loop with its exception. -/
def shaUpdates (e : ErrorRec) (fields : List String) : Except PyExc (List Bytes) :=
  match fields with
  | [] => Except.ok []
  | f :: rest =>
    match e.getattr f with
    | Except.error exc => Except.error exc
    | Except.ok v => (shaUpdates e rest).map (strToBytes v :: ·)

/-- Model of `Error.as_fingerprint`: feed each fingerprint field through
`getattr` into the hash, then return the hex digest. (The source line
`for field in self.fingerprint_fields):` even carries an unbalanced
parenthesis — a `SyntaxError` on import; the model gives the loop its
evident intent and shows it still fails at run time.) -/
def ErrorRec.as_fingerprint (e : ErrorRec) : Except PyExc String :=
  (shaUpdates e Error.fingerprint_fields).map (fun upds => sha256Hex upds.flatten)

/-- Base `Reporter` from `pytattle/reporters/__init__.py`: its only
instance attribute is `config`, filled in `__init__` from the class
defaults, the config-file section for the reporter, and the keyword
arguments. -/
structure Reporter where
  config : List (String × String)
deriving DecidableEq, Repr

/-- Attribute names defined on the `Reporter` class. -/
def reporterClassAttrNames : List String :=
  ["name", "defaults", "required", "configure", "ask_for",
   "check_previous", "report"]

/-- Attribute names stored in a `Reporter` instance's dictionary. -/
def reporterInstanceAttrNames : List String := ["config"]

/-- Values an attribute access on a base `Reporter` can produce. -/
inductive AttrVal where
  | str (s : String)
  | pyNone
  | classOrInstance (n : String)
deriving DecidableEq, Repr

/-- Model of attribute access `r.<n>` on a base `Reporter`: Python tries
the normal lookup (instance dictionary, then class) first, and only when
both fail calls `__getattr__`, whose body is
`return self.config.get(name, None)`. The `Except` result type records
that the access can in principle raise; this definition never does. -/
def Reporter.getattribute (r : Reporter) (n : String) : Except PyExc AttrVal :=
  if n ∈ reporterInstanceAttrNames then Except.ok (AttrVal.classOrInstance n)
  else if n ∈ reporterClassAttrNames then Except.ok (AttrVal.classOrInstance n)
  else
    match dictGet r.config n with
    | some v => Except.ok (AttrVal.str v)
    | none => Except.ok AttrVal.pyNone

/-- Outcome dictionary returned by a reporter's `report` call: a success
flag plus detail, per the reporter interface. -/
structure Outcome where
  success : Bool
  detail : String
deriving DecidableEq, Repr

/-- Behaviour of one reporter during a single `send` call. `self.error`
and `self.user` are fixed for the whole call, so a reporter's
`check_previous(error, user)` is one boolean and its `report(error, user)`
one outcome — either a returned result or a raised exception. -/
structure SendReporter where
  name : String
  check_previous : Bool
  report : Except PyExc Outcome
deriving DecidableEq, Repr

/-- Whether the modelled `report` call returns rather than raises. -/
def SendReporter.reportOk (r : SendReporter) : Bool :=
  match r.report with
  | Except.ok _ => true
  | Except.error _ => false

/-- Trace events recorded while `send` iterates: the reporter at position
`i` of the argument sequence had its `check_previous`, respectively its
`report`, invoked. -/
inductive Event where
  | checkCall (i : Nat)
  | reportCall (i : Nat)
deriving DecidableEq, Repr

/-- Position carried by a trace event. -/
def Event.pos : Event → Nat
  | Event.checkCall i => i
  | Event.reportCall i => i

/-- Result of `Report.send`: the `self.results` dictionary, the trace of
reporter invocations, and the returned value (or propagated exception). -/
structure SendOut where
  results : List (String × Outcome)
  trace : List Event
  ret : Except PyExc Nat
deriving DecidableEq, Repr

/-- Loop of `Report.send` from position `idx` on. `sent` is the local
counter — initialised to 0 and, in the source, never incremented. A raised
exception from `report` propagates at once: `send` has no handler, so the
remaining reporters are not visited. -/
def sendAux (idx : Nat) (rs : List SendReporter) (sent : Nat)
    (results : List (String × Outcome)) (trace : List Event) : SendOut :=
  match rs with
  | [] => SendOut.mk results trace (Except.ok sent)
  | r :: rest =>
    if r.check_previous then
      sendAux (idx + 1) rest sent results (trace ++ [Event.checkCall idx])
    else
      match r.report with
      | Except.error e =>
        SendOut.mk results (trace ++ [Event.checkCall idx, Event.reportCall idx])
          (Except.error e)
      | Except.ok v =>
        sendAux (idx + 1) rest sent (dictInsert results r.name v)
          (trace ++ [Event.checkCall idx, Event.reportCall idx])

/-- Model of `Report.send` on a fresh `Report` (`self.results = {}` from
`__init__`). -/
def Report.send (rs : List SendReporter) : SendOut := sendAux 0 rs 0 [] []

/-- Trace `send` produces from position `idx` on when no `report` call
raises. -/
def traceOf (idx : Nat) (rs : List SendReporter) : List Event :=
  match rs with
  | [] => []
  | r :: rest =>
    Event.checkCall idx ::
      ((if r.check_previous then [] else [Event.reportCall idx]) ++
        traceOf (idx + 1) rest)


/-! Helper lemmas. -/

lemma bytesToStr_strToBytes (s : String) : bytesToStr (strToBytes s) = s := by
  have h : s.data.map (fun c => Char.ofNat (Char.toNat c)) = s.data := by
    simp [Char.ofNat_toNat]
  simp only [bytesToStr, strToBytes, List.map_map, Function.comp_def, h]

lemma dictInsert_mem {α : Type} (d : List (String × α)) (k : String) (v : α) :
    ∀ q ∈ dictInsert d k v, q ∈ d ∨ q = (k, v) := by
  induction d with
  | nil => simp [dictInsert]
  | cons h0 rest ih =>
    obtain ⟨k2, v2⟩ := h0
    intro q hq
    rw [dictInsert] at hq
    by_cases hk : k2 = k
    · rw [if_pos hk] at hq
      rcases List.mem_cons.mp hq with hq | hq
      · right; rw [hq, hk]
      · left; exact List.mem_cons_of_mem _ hq
    · rw [if_neg hk] at hq
      rcases List.mem_cons.mp hq with hq | hq
      · left; rw [hq]; exact List.mem_cons_self _ _
      · rcases ih q hq with h | h
        · left; exact List.mem_cons_of_mem _ h
        · right; exact h

lemma dictInsert_length_of_disj {α : Type} (d : List (String × α)) (k : String)
    (v : α) (h : ∀ q ∈ d, q.1 ≠ k) :
    (dictInsert d k v).length = d.length + 1 := by
  induction d with
  | nil => rfl
  | cons h0 rest ih =>
    obtain ⟨k2, v2⟩ := h0
    rw [dictInsert]
    have hk : k2 ≠ k := h (k2, v2) (List.mem_cons_self _ _)
    rw [if_neg hk]
    simp only [List.length_cons]
    rw [ih (fun q hq => h q (List.mem_cons_of_mem _ hq))]

lemma countP_not_check (rs : List SendReporter) :
    rs.countP (fun r => !r.check_previous) =
      rs.length - rs.countP (fun r => r.check_previous) := by
  induction rs with
  | nil => rfl
  | cons r rest ih =>
    have hle : rest.countP (fun r => r.check_previous) ≤ rest.length :=
      List.countP_le_length _
    cases hc : r.check_previous
    case false =>
      simp [List.countP_cons, hc, ih]
      omega
    case true =>
      simp [List.countP_cons, hc, ih]

lemma sendAux_cons_skip (idx : Nat) (r : SendReporter) (rest : List SendReporter)
    (sent : Nat) (results : List (String × Outcome)) (trace : List Event)
    (hc : r.check_previous = true) :
    sendAux idx (r :: rest) sent results trace =
      sendAux (idx + 1) rest sent results (trace ++ [Event.checkCall idx]) := by
  rw [sendAux, if_pos hc]

lemma sendAux_cons_error (idx : Nat) (r : SendReporter) (rest : List SendReporter)
    (sent : Nat) (results : List (String × Outcome)) (trace : List Event)
    (e : PyExc) (hc : r.check_previous = false) (hr : r.report = Except.error e) :
    sendAux idx (r :: rest) sent results trace =
      SendOut.mk results (trace ++ [Event.checkCall idx, Event.reportCall idx])
        (Except.error e) := by
  rw [sendAux, if_neg (by simp [hc]), hr]

lemma sendAux_cons_ok (idx : Nat) (r : SendReporter) (rest : List SendReporter)
    (sent : Nat) (results : List (String × Outcome)) (trace : List Event)
    (v : Outcome) (hc : r.check_previous = false) (hr : r.report = Except.ok v) :
    sendAux idx (r :: rest) sent results trace =
      sendAux (idx + 1) rest sent (dictInsert results r.name v)
        (trace ++ [Event.checkCall idx, Event.reportCall idx]) := by
  rw [sendAux, if_neg (by simp [hc]), hr]

lemma sendAux_ret_of_ok (rs : List SendReporter) (idx sent : Nat)
    (results : List (String × Outcome)) (trace : List Event)
    (hok : ∀ r ∈ rs, r.reportOk = true) :
    (sendAux idx rs sent results trace).ret = Except.ok sent := by
  induction rs generalizing idx results trace with
  | nil => rfl
  | cons r rest ih =>
    have htl : ∀ q ∈ rest, q.reportOk = true :=
      fun q hq => hok q (List.mem_cons_of_mem _ hq)
    cases hc : r.check_previous with
    | true => rw [sendAux_cons_skip _ _ _ _ _ _ hc]; exact ih _ _ _ htl
    | false =>
      have hr := hok r (List.mem_cons_self _ _)
      cases hrr : r.report with
      | error e => rw [SendReporter.reportOk, hrr] at hr; cases hr
      | ok v => rw [sendAux_cons_ok _ _ _ _ _ _ _ hc hrr]; exact ih _ _ _ htl

lemma sendAux_trace_of_ok (rs : List SendReporter) (idx sent : Nat)
    (results : List (String × Outcome)) (trace : List Event)
    (hok : ∀ r ∈ rs, r.reportOk = true) :
    (sendAux idx rs sent results trace).trace = trace ++ traceOf idx rs := by
  induction rs generalizing idx results trace with
  | nil => simp [sendAux, traceOf]
  | cons r rest ih =>
    have htl : ∀ q ∈ rest, q.reportOk = true :=
      fun q hq => hok q (List.mem_cons_of_mem _ hq)
    cases hc : r.check_previous with
    | true =>
      rw [sendAux_cons_skip _ _ _ _ _ _ hc, ih _ _ _ htl, traceOf]
      simp [hc]
    | false =>
      have hr := hok r (List.mem_cons_self _ _)
      cases hrr : r.report with
      | error e => rw [SendReporter.reportOk, hrr] at hr; cases hr
      | ok v =>
        rw [sendAux_cons_ok _ _ _ _ _ _ _ hc hrr, ih _ _ _ htl, traceOf]
        simp [hc]

lemma traceOf_pos_ge (rs : List SendReporter) (idx : Nat) :
    ∀ e ∈ traceOf idx rs, idx ≤ e.pos := by
  induction rs generalizing idx with
  | nil => simp [traceOf]
  | cons r rest ih =>
    intro e he
    rw [traceOf] at he
    rcases List.mem_cons.mp he with he | he
    · rw [he]; exact Nat.le_refl idx
    rcases List.mem_append.mp he with he | he
    · by_cases hc : r.check_previous
      · rw [if_pos hc] at he; cases he
      · rw [if_neg hc] at he
        rcases List.mem_singleton.mp he with rfl
        exact Nat.le_refl idx
    · exact Nat.le_of_succ_le (ih (idx + 1) e he)

lemma traceOf_count_check (rs : List SendReporter) (idx m : Nat) :
    (traceOf idx rs).count (Event.checkCall m) =
      if idx ≤ m ∧ m < idx + rs.length then 1 else 0 := by
  induction rs generalizing idx with
  | nil =>
    simp only [traceOf, List.count_nil, List.length_nil]
    split_ifs with h <;> omega
  | cons r rest ih =>
    rw [traceOf]
    simp only [List.count_cons, List.count_append, ih (idx + 1), List.length_cons]
    have hopt : ((if r.check_previous then ([] : List Event)
        else [Event.reportCall idx]).count (Event.checkCall m)) = 0 := by
      by_cases hc : r.check_previous <;> simp [hc]
    rw [hopt]
    simp only [beq_iff_eq, Event.checkCall.injEq]
    split_ifs <;> omega

lemma traceOf_count_report (rs : List SendReporter) (idx j : Nat)
    (r : SendReporter) (h : rs[j]? = some r) :
    (traceOf idx rs).count (Event.reportCall (idx + j)) =
      if r.check_previous then 0 else 1 := by
  induction rs generalizing idx j with
  | nil => simp at h
  | cons r2 rest ih =>
    cases j with
    | zero =>
      simp only [List.getElem?_cons_zero, Option.some.injEq] at h
      subst h
      rw [traceOf]
      simp only [List.count_cons, List.count_append]
      have hrec : (traceOf (idx + 1) rest).count (Event.reportCall (idx + 0)) = 0 := by
        rw [List.count_eq_zero]
        intro hmem
        have := traceOf_pos_ge rest (idx + 1) _ hmem
        simp only [Event.pos] at this
        omega
      simp only [Nat.add_zero] at hrec
      rw [Nat.add_zero, hrec]
      cases hc : r2.check_previous <;> simp [hc]
    | succ k =>
      simp only [List.getElem?_cons_succ] at h
      rw [traceOf]
      simp only [List.count_cons, List.count_append]
      have hidx : idx + (k + 1) = (idx + 1) + k := by omega
      rw [hidx, ih (idx + 1) k h]
      have hopt : ((if r2.check_previous then ([] : List Event)
          else [Event.reportCall idx]).count (Event.reportCall (idx + 1 + k))) = 0 := by
        cases hc : r2.check_previous
        case false =>
          show List.count (Event.reportCall (idx + 1 + k)) [Event.reportCall idx] = 0
          simp only [List.count_cons, List.count_nil, beq_iff_eq,
            Event.reportCall.injEq]
          split_ifs with h2 <;> omega
        case true => simp
      rw [hopt]
      simp

lemma sendAux_results_of_ok (rs : List SendReporter) (idx sent : Nat)
    (results : List (String × Outcome)) (trace : List Event)
    (hok : ∀ r ∈ rs, r.reportOk = true)
    (hnd : (rs.map SendReporter.name).Nodup)
    (hdisj : ∀ r ∈ rs, ∀ q ∈ results, q.1 ≠ r.name) :
    (sendAux idx rs sent results trace).results.length =
      results.length + rs.countP (fun r => !r.check_previous) := by
  induction rs generalizing idx results trace with
  | nil => simp [sendAux]
  | cons r rest ih =>
    have htl : ∀ q ∈ rest, q.reportOk = true :=
      fun q hq => hok q (List.mem_cons_of_mem _ hq)
    have hnd2 : (rest.map SendReporter.name).Nodup := (List.nodup_cons.mp hnd).2
    cases hc : r.check_previous with
    | true =>
      rw [sendAux_cons_skip _ _ _ _ _ _ hc]
      rw [ih _ _ _ htl hnd2 (fun q hq => hdisj q (List.mem_cons_of_mem _ hq))]
      simp [List.countP_cons, hc]
    | false =>
      have hr := hok r (List.mem_cons_self _ _)
      cases hrr : r.report with
      | error e => rw [SendReporter.reportOk, hrr] at hr; cases hr
      | ok v =>
        rw [sendAux_cons_ok _ _ _ _ _ _ _ hc hrr]
        have hdisj2 : ∀ r2 ∈ rest, ∀ q ∈ dictInsert results r.name v, q.1 ≠ r2.name := by
          intro r2 hr2 q hq
          rcases dictInsert_mem results r.name v q hq with hq2 | hq2
          · exact hdisj r2 (List.mem_cons_of_mem _ hr2) q hq2
          · rw [hq2]
            intro heq
            have hmem2 : r.name ∈ rest.map SendReporter.name := by
              rw [show r.name = r2.name from heq]
              exact List.mem_map_of_mem SendReporter.name hr2
            exact (List.nodup_cons.mp hnd).1 hmem2
        rw [ih _ _ _ htl hnd2 hdisj2]
        rw [dictInsert_length_of_disj results r.name v
          (fun q hq => hdisj r (List.mem_cons_self _ _) q hq)]
        simp only [List.countP_cons, hc, Bool.not_false, if_true]
        omega

lemma sendAux_trace_mem (rs : List SendReporter) (idx sent : Nat)
    (results : List (String × Outcome)) (trace : List Event) :
    ∀ e ∈ (sendAux idx rs sent results trace).trace, e ∈ trace ∨ idx ≤ e.pos := by
  induction rs generalizing idx results trace with
  | nil => intro e he; left; exact he
  | cons r rest ih =>
    intro e he
    cases hc : r.check_previous with
    | true =>
      rw [sendAux_cons_skip _ _ _ _ _ _ hc] at he
      rcases ih _ _ _ e he with hin | hge
      · rcases List.mem_append.mp hin with hin | hin
        · left; exact hin
        · right
          rcases List.mem_singleton.mp hin with rfl
          exact Nat.le_refl idx
      · right; omega
    | false =>
      cases hrr : r.report with
      | error e2 =>
        rw [sendAux_cons_error _ _ _ _ _ _ _ hc hrr] at he
        rcases List.mem_append.mp he with hin | hin
        · left; exact hin
        · right
          rcases List.mem_cons.mp hin with hin | hin
          · rw [hin]; exact Nat.le_refl idx
          rcases List.mem_singleton.mp hin with rfl
          exact Nat.le_refl idx
      | ok v =>
        rw [sendAux_cons_ok _ _ _ _ _ _ _ hc hrr] at he
        rcases ih _ _ _ e he with hin | hge
        · rcases List.mem_append.mp hin with hin | hin
          · left; exact hin
          · right
            rcases List.mem_cons.mp hin with hin | hin
            · rw [hin]; exact Nat.le_refl idx
            rcases List.mem_singleton.mp hin with rfl
            exact Nat.le_refl idx
        · right; omega

lemma sendAux_no_report_of_skip (rs : List SendReporter) (idx sent : Nat)
    (results : List (String × Outcome)) (trace : List Event) (j : Nat)
    (r : SendReporter) (hget : rs[j]? = some r) (hskip : r.check_previous = true)
    (hnotin : Event.reportCall (idx + j) ∉ trace) :
    Event.reportCall (idx + j) ∉ (sendAux idx rs sent results trace).trace := by
  induction rs generalizing idx j results trace with
  | nil => exact hnotin
  | cons r2 rest ih =>
    cases j with
    | zero =>
      simp only [List.getElem?_cons_zero, Option.some.injEq] at hget
      subst hget
      rw [sendAux_cons_skip _ _ _ _ _ _ hskip]
      intro hmem
      rcases sendAux_trace_mem rest (idx + 1) sent results _ _ hmem with hin | hge
      · rcases List.mem_append.mp hin with hin | hin
        · exact hnotin hin
        · have hin2 := List.mem_singleton.mp hin
          simp at hin2
      · simp only [Event.pos] at hge
        omega
    | succ k =>
      simp only [List.getElem?_cons_succ] at hget
      have hidx : idx + (k + 1) = (idx + 1) + k := by omega
      cases hc : r2.check_previous with
      | true =>
        rw [sendAux_cons_skip _ _ _ _ _ _ hc, hidx]
        rw [hidx] at hnotin
        refine ih _ _ _ k hget ?_
        intro hmem
        rcases List.mem_append.mp hmem with hin | hin
        · exact hnotin hin
        · have hin2 := List.mem_singleton.mp hin
          simp at hin2
      | false =>
        cases hrr : r2.report with
        | error e2 =>
          rw [sendAux_cons_error _ _ _ _ _ _ _ hc hrr]
          intro hmem
          rcases List.mem_append.mp hmem with hin | hin
          · exact hnotin hin
          · rcases List.mem_cons.mp hin with hin | hin
            · simp at hin
            have hin2 := List.mem_singleton.mp hin
            simp only [Event.reportCall.injEq] at hin2
            omega
        | ok v =>
          rw [sendAux_cons_ok _ _ _ _ _ _ _ hc hrr, hidx]
          rw [hidx] at hnotin
          refine ih _ _ _ k hget ?_
          intro hmem
          rcases List.mem_append.mp hmem with hin | hin
          · exact hnotin hin
          · rcases List.mem_cons.mp hin with hin | hin
            · simp at hin
            have hin2 := List.mem_singleton.mp hin
            simp only [Event.reportCall.injEq] at hin2
            omega

/-! Claim theorems. -/

/-- C2: for every salt, passphrase P and plaintext T,
`Crypter.decrypt (Crypter.encrypt T P) P = T` exactly; in particular for
passphrase "hunter2", salt b"0123456789abcdef" and plaintext
"[user]\nname = alice\n", seal then open returns the original string. -/
theorem crypter_roundtrip :
    (∀ (salt : Bytes) (passphrase text : String),
      (Crypter.mk salt).decrypt ((Crypter.mk salt).encrypt text passphrase)
          passphrase = Except.ok text) ∧
    (Crypter.mk (strToBytes "0123456789abcdef")).decrypt
        ((Crypter.mk (strToBytes "0123456789abcdef")).encrypt
          "[user]\nname = alice\n" "hunter2") "hunter2" =
      Except.ok "[user]\nname = alice\n" := by
  have h : ∀ (salt : Bytes) (passphrase text : String),
      (Crypter.mk salt).decrypt ((Crypter.mk salt).encrypt text passphrase)
          passphrase = Except.ok text := by
    intro salt p t
    simp [Crypter.decrypt, Crypter.encrypt, fernetEncrypt, fernetDecrypt,
      Except.map, bytesToStr_strToBytes]
  exact ⟨h, h _ _ _⟩

/-- C7: decrypting a ciphertext that was not produced by `encrypt` under the
decrypting crypter's passphrase and salt — a token built under a different
passphrase or salt, or a non-token byte string (corrupted data) — raises
`InvalidToken` (the spec's `AuthenticationError`) instead of returning
garbage. -/
theorem crypter_decrypt_auth_failure (salt salt2 : Bytes)
    (passphrase passphrase2 text : String) (raw : Bytes)
    (hdiff : passphrase2 ≠ passphrase ∨ salt2 ≠ salt) :
    (Crypter.mk salt).decrypt ((Crypter.mk salt2).encrypt text passphrase2)
        passphrase = Except.error PyExc.invalidToken ∧
    (Crypter.mk salt).decrypt (Ciphertext.junk raw) passphrase =
      Except.error PyExc.invalidToken := by
  constructor
  · have hne : FernetKey.mk passphrase2 salt2 ≠ FernetKey.mk passphrase salt := by
      intro h
      rw [FernetKey.mk.injEq] at h
      rcases hdiff with hd | hd
      · exact hd h.1
      · exact hd h.2
    simp [Crypter.decrypt, Crypter.encrypt, fernetEncrypt, fernetDecrypt,
      Crypter.getFernet, hne, Except.map]
  · simp [Crypter.decrypt, fernetDecrypt, Except.map]

/-- Witness for C7 at a concrete wrong passphrase and a concrete corrupted
byte string. -/
theorem crypter_decrypt_auth_failure_witness :
    (Crypter.mk (strToBytes "0123456789abcdef")).decrypt
        ((Crypter.mk (strToBytes "0123456789abcdef")).encrypt
          "[user]\nname = alice\n" "hunter2") "wrong horse" =
      Except.error PyExc.invalidToken ∧
    (Crypter.mk (strToBytes "0123456789abcdef")).decrypt
        (Ciphertext.junk [0, 1, 2]) "wrong horse" =
      Except.error PyExc.invalidToken :=
  crypter_decrypt_auth_failure _ _ _ _ _ _ (Or.inl (by decide))

/-- C3 (code bug): `Config.write` cannot complete in either mode, so no
write-then-read round trip exists. With a passphrase the source calls
`self.crypter.decrypt` on the freshly serialised text — `decrypt` where the
docstring says encrypt — which raises `InvalidToken`; without one it passes
the path string to `ConfigParser.write`, which raises `AttributeError`. -/
theorem config_write_bug :
    Config.write
        (Config.mk ".tattleuser" (some "hunter2")
          (some (Crypter.mk (strToBytes "0123456789abcdef")))
          [("user", [("name", "alice")])]) =
      Except.error PyExc.invalidToken ∧
    Config.write (Config.mk ".tattleapp" none none
        [("app", [("version", "1.0")])]) =
      Except.error (PyExc.attributeError "write") := by
  constructor
  · rfl
  · rfl

/-- C4 (code bug): `Error.as_fingerprint` raises `AttributeError` on every
record instead of returning a hex digest: `Error.__init__` is `pass`, so no
instance attribute exists, and the first fingerprint field is the misspelt
`pacakge_name` (the loop line is moreover a `SyntaxError` in the source).
Fingerprinting is therefore neither total nor stable. -/
theorem as_fingerprint_total_failure (e : ErrorRec) :
    e.as_fingerprint = Except.error (PyExc.attributeError "pacakge_name") := rfl

/-- C8 (code bug): constructed with a path whose file does not exist,
`Crypter.__init__` keeps the path string itself as `self.salt` — it neither
generates 16 random bytes nor persists anything (first conjunct); the
generate-and-persist branch runs only for a non-string argument, where it
discards the given bytes and uses the fresh random bytes as the file path
to write (second conjunct). -/
theorem crypter_salt_path_bug :
    crypterInitSalt (SaltArg.path "pytattle.salt") [] (List.range 16) =
      (SaltVal.str "pytattle.salt", []) ∧
    crypterInitSalt (SaltArg.bytes [1, 2, 3]) [] (List.range 16) =
      (SaltVal.bytes (List.range 16),
        [(bytesToStr (List.range 16), List.range 16)]) := by
  constructor
  · rfl
  · rfl

/-- C9 (code bug): `Config.get_cache` raises `NameError` for every store
state and every section name — its body reads the unbound identifier `name`
instead of the parameter `section_name` — so it never returns the section's
cache mapping. -/
theorem get_cache_name_error (cache : List (String × List (String × String)))
    (section_name : String) :
    Config.get_cache cache section_name = Except.error (PyExc.nameError "name") := rfl

/-- C10: on a base `Reporter`, access to an attribute that is neither a
class nor an instance attribute falls back to `__getattr__`, which returns
the value stored under that name in `self.config` and `None` (never an
`AttributeError`) when the name is absent. -/
theorem reporter_getattr_config_fallback (r : Reporter) (n : String)
    (hinst : n ∉ reporterInstanceAttrNames) (hcls : n ∉ reporterClassAttrNames) :
    (∀ v, dictGet r.config n = some v →
      Reporter.getattribute r n = Except.ok (AttrVal.str v)) ∧
    (dictGet r.config n = none →
      Reporter.getattribute r n = Except.ok AttrVal.pyNone) := by
  constructor
  · intro v hv
    rw [Reporter.getattribute, if_neg hinst, if_neg hcls, hv]
  · intro hv
    rw [Reporter.getattribute, if_neg hinst, if_neg hcls, hv]

/-- Witness for C10: a configured option is returned, and an unconfigured
one yields `None`, on a concrete reporter. -/
theorem reporter_getattr_config_fallback_witness :
    ((∀ v, dictGet (Reporter.mk [("password", "hunter2")]).config "password" = some v →
      Reporter.getattribute (Reporter.mk [("password", "hunter2")]) "password" =
        Except.ok (AttrVal.str v)) ∧
    (dictGet (Reporter.mk [("password", "hunter2")]).config "password" = none →
      Reporter.getattribute (Reporter.mk [("password", "hunter2")]) "password" =
        Except.ok AttrVal.pyNone)) ∧
    Reporter.getattribute (Reporter.mk [("password", "hunter2")]) "username" =
      Except.ok AttrVal.pyNone :=
  ⟨reporter_getattr_config_fallback (Reporter.mk [("password", "hunter2")])
      "password" (by decide) (by decide),
    by rfl⟩

/-- C6: a reporter for which `check_previous` returns true never has its
`report` method invoked during that `send` call. -/
theorem send_dedup_short_circuit (rs : List SendReporter) (i : Nat)
    (r : SendReporter) (hget : rs[i]? = some r)
    (hskip : r.check_previous = true) :
    Event.reportCall i ∉ (Report.send rs).trace := by
  have h := sendAux_no_report_of_skip rs 0 0 [] [] i r hget hskip
    (List.not_mem_nil _)
  simpa using h

/-- Witness for C6 on a concrete reporter list whose first reporter is
deduplicated. -/
theorem send_dedup_short_circuit_witness :
    Event.reportCall 0 ∉
      (Report.send [SendReporter.mk "github" true
        (Except.ok (Outcome.mk true "issue 7"))]).trace :=
  send_dedup_short_circuit _ 0 _ rfl rfl

/-- C5 (code bug): the local counter `sent` of `Report.send` is initialised
to 0 and never incremented, so `send` returns 0 even when a reporter was
actually sent to: here one reporter is reported to (one `reportCall` in the
trace, its outcome recorded) yet the returned count is 0, not 1. -/
theorem send_sent_count_bug :
    (Report.send [SendReporter.mk "ftp" false
        (Except.ok (Outcome.mk true "uploaded"))]).trace.count
        (Event.reportCall 0) = 1 ∧
    (Report.send [SendReporter.mk "ftp" false
        (Except.ok (Outcome.mk true "uploaded"))]).results =
      [("ftp", Outcome.mk true "uploaded")] ∧
    (Report.send [SendReporter.mk "ftp" false
        (Except.ok (Outcome.mk true "uploaded"))]).ret = Except.ok 0 := by
  refine ⟨?_, rfl, rfl⟩
  rfl

/-- C1 counterexample: the claim fails on the source in two ways. First, a
reporter whose `report` raises aborts the loop — `send` has no handler —
so with two reporters where the first raises, `send` propagates the
exception and the second reporter's `check_previous` is never called.
Second, `results` is keyed by `reporter.name`, so two non-skipped reporters
sharing a name leave one entry, not N − skipped = 2. -/
theorem send_dispatch_counterexample :
    ((Report.send [SendReporter.mk "a" false
          (Except.error (PyExc.exception "connection refused")),
        SendReporter.mk "b" false (Except.ok (Outcome.mk true "ok"))]).ret =
        Except.error (PyExc.exception "connection refused") ∧
      Event.checkCall 1 ∉
        (Report.send [SendReporter.mk "a" false
            (Except.error (PyExc.exception "connection refused")),
          SendReporter.mk "b" false (Except.ok (Outcome.mk true "ok"))]).trace) ∧
    (Report.send [SendReporter.mk "a" false (Except.ok (Outcome.mk true "first")),
        SendReporter.mk "a" false (Except.ok (Outcome.mk false "second"))]).results.length
      = 1 := by
  refine ⟨⟨rfl, ?_⟩, rfl⟩
  decide

/-- C1 (amended): for reporters with pairwise-distinct names none of whose
`report` calls raises, `send` attempts every reporter exactly once — one
`check_previous` call each, one `report` call unless skipped, an
unsuccessful outcome stopping nothing — returns without raising, and the
results map holds exactly N minus the number skipped via `check_previous`
entries. -/
theorem send_dispatch_complete (rs : List SendReporter)
    (hnd : (rs.map SendReporter.name).Nodup)
    (hok : ∀ r ∈ rs, r.reportOk = true) :
    (Report.send rs).ret = Except.ok 0 ∧
    (∀ (i : Nat) (r : SendReporter), rs[i]? = some r →
      (Report.send rs).trace.count (Event.checkCall i) = 1 ∧
      (Report.send rs).trace.count (Event.reportCall i) =
        (if r.check_previous then 0 else 1)) ∧
    (Report.send rs).results.length =
      rs.length - rs.countP (fun r => r.check_previous) := by
  refine ⟨sendAux_ret_of_ok rs 0 0 [] [] hok, ?_, ?_⟩
  · intro i r hget
    have hlen : i < rs.length := by
      by_contra hge
      rw [List.getElem?_eq_none (Nat.le_of_not_lt hge)] at hget
      cases hget
    have htr : (Report.send rs).trace = traceOf 0 rs := by
      have h := sendAux_trace_of_ok rs 0 0 [] [] hok
      simpa [Report.send] using h
    constructor
    · rw [htr, traceOf_count_check]
      rw [if_pos ⟨Nat.zero_le i, by omega⟩]
    · have h := traceOf_count_report rs 0 i r hget
      rw [Nat.zero_add] at h
      rw [htr, h]
  · have h := sendAux_results_of_ok rs 0 0 [] [] hok hnd
      (fun r _ q hq => absurd hq (List.not_mem_nil q))
    rw [Report.send, h, countP_not_check]
    simp

/-- Witness for C1 (amended) on three concrete reporters — one succeeding,
one skipped by dedup, one returning a failure outcome. -/
theorem send_dispatch_complete_witness :
    (Report.send [SendReporter.mk "ftp" false (Except.ok (Outcome.mk true "up")),
        SendReporter.mk "github" true (Except.ok (Outcome.mk true "dup")),
        SendReporter.mk "email" false (Except.ok (Outcome.mk false "bounced"))]).ret =
      Except.ok 0 ∧
    (∀ (i : Nat) (r : SendReporter),
      [SendReporter.mk "ftp" false (Except.ok (Outcome.mk true "up")),
        SendReporter.mk "github" true (Except.ok (Outcome.mk true "dup")),
        SendReporter.mk "email" false (Except.ok (Outcome.mk false "bounced"))][i]? =
          some r →
      (Report.send [SendReporter.mk "ftp" false (Except.ok (Outcome.mk true "up")),
        SendReporter.mk "github" true (Except.ok (Outcome.mk true "dup")),
        SendReporter.mk "email" false (Except.ok (Outcome.mk false "bounced"))]).trace.count
          (Event.checkCall i) = 1 ∧
      (Report.send [SendReporter.mk "ftp" false (Except.ok (Outcome.mk true "up")),
        SendReporter.mk "github" true (Except.ok (Outcome.mk true "dup")),
        SendReporter.mk "email" false (Except.ok (Outcome.mk false "bounced"))]).trace.count
          (Event.reportCall i) = (if r.check_previous then 0 else 1)) ∧
    (Report.send [SendReporter.mk "ftp" false (Except.ok (Outcome.mk true "up")),
        SendReporter.mk "github" true (Except.ok (Outcome.mk true "dup")),
        SendReporter.mk "email" false (Except.ok (Outcome.mk false "bounced"))]).results.length =
      ([SendReporter.mk "ftp" false (Except.ok (Outcome.mk true "up")),
        SendReporter.mk "github" true (Except.ok (Outcome.mk true "dup")),
        SendReporter.mk "email" false (Except.ok (Outcome.mk false "bounced"))] :
          List SendReporter).length -
        ([SendReporter.mk "ftp" false (Except.ok (Outcome.mk true "up")),
          SendReporter.mk "github" true (Except.ok (Outcome.mk true "dup")),
          SendReporter.mk "email" false (Except.ok (Outcome.mk false "bounced"))] :
            List SendReporter).countP (fun r => r.check_previous) :=
  send_dispatch_complete _ (by decide) (by decide)

end PyTattle
